import Mathlib

/-!
# Proof-of-existence pallet: verification of its specification

Shallow embedding of `src/pallets/poe/src/lib.rs` (a Substrate FRAME
pallet). The pallet keeps one storage map `Proofs` from a bounded byte
vector (the proof/fingerprint) to a pair `(AccountId, BlockNumber)` and
exposes three dispatchables: `create_claim`, `transfer_claim` and
`revoke_claim`.

Modelling choices:
- `Proof` is a byte sequence, modelled as `List Nat`; the registry never
  inspects it beyond equality, so the length bound `MaxBytesInHash` plays
  no role in the claims and is not modelled.
- `AccountId` and `BlockNumber` are abstract in the source (`T::AccountId`,
  `T::BlockNumber`); they are modelled as `Nat`.
- The storage map is a function `Proof → Option (AccountId × BlockNumber)`;
  `contains_key`, `insert`, `mutate` and `remove` mirror the `StorageMap`
  operations the source uses.
- Each dispatchable takes the authenticated `sender` directly (the
  `ensure_signed` step is the host's authentication collaborator) and the
  current block number as an explicit argument (the source reads it from
  `frame_system`).  It returns the dispatch result, the storage after the
  call, and the list of deposited events.
- `transfer_claim` and `revoke_claim` contain an
  `.expect("All proofs must have an owner!")` on the second lookup; that
  panic possibility is modelled by returning `Option CallResult`, with
  `none` standing for the panic.
-/

namespace PoE

abbrev AccountId := Nat

abbrev BlockNumber := Nat

/-- A proof (content fingerprint): an opaque byte sequence.  In the source
it is `BoundedVec<u8, T::MaxBytesInHash>`. -/
abbrev Proof := List Nat

/-- The `Proofs` storage map: each proof maps to `(owner, block number at
creation)`, or to nothing (`OptionQuery`). -/
abbrev Registry := Proof → Option (AccountId × BlockNumber)

/-- The storage map at genesis: empty. -/
def emptyRegistry : Registry := fun _ => none

/-- `StorageMap::contains_key`. -/
def contains_key (proofs : Registry) (proof : Proof) : Bool :=
  (proofs proof).isSome

/-- `StorageMap::insert`. -/
def insert (proofs : Registry) (proof : Proof)
    (value : AccountId × BlockNumber) : Registry :=
  fun q => if q = proof then some value else proofs q

/-- `StorageMap::mutate`: apply a function to the stored `Option` at one
key. -/
def mutate (proofs : Registry) (proof : Proof)
    (f : Option (AccountId × BlockNumber) → Option (AccountId × BlockNumber)) :
    Registry :=
  fun q => if q = proof then f (proofs q) else proofs q

/-- `StorageMap::remove`. -/
def remove (proofs : Registry) (proof : Proof) : Registry :=
  fun q => if q = proof then none else proofs q

/-- The pallet's events (`enum Event`). -/
inductive Event where
  | ClaimCreated (who : AccountId) (claim : Proof)
  | ClaimRevoked (who : AccountId) (claim : Proof)
  | ClaimTransfered (sender account : AccountId) (claim : Proof)
deriving DecidableEq

/-- The pallet's errors (`enum Error`). -/
inductive Error where
  | ProofAlreadyClaimed
  | NoSuchProof
  | NotProofOwner
deriving DecidableEq

/-- Outcome of one dispatchable call: the `DispatchResult`, the `Proofs`
storage after the call, and the events deposited during the call. -/
structure CallResult where
  result : Except Error Unit
  proofs : Registry
  events : List Event

/-- `create_claim` (lib.rs lines 65-87): fail with `ProofAlreadyClaimed`
if the proof is already stored, otherwise insert `(sender, current_block)`
and deposit `ClaimCreated(sender, proof)`. -/
def create_claim (proofs : Registry) (current_block : BlockNumber)
    (sender : AccountId) (proof : Proof) : CallResult :=
  if contains_key proofs proof then
    ⟨Except.error Error.ProofAlreadyClaimed, proofs, []⟩
  else
    ⟨Except.ok (), insert proofs proof (sender, current_block),
      [Event.ClaimCreated sender proof]⟩

/-- The closure passed to `Proofs::mutate` in `transfer_claim` (lib.rs
lines 111-119): on `Some(value)` set the owner field (`value.0 = account`),
on `None` do nothing. -/
def transferMutator (account : AccountId) :
    Option (AccountId × BlockNumber) → Option (AccountId × BlockNumber)
  | some value => some (account, value.2)
  | none => none

/-- `transfer_claim` (lib.rs lines 91-125): fail with `NoSuchProof` if the
proof is not stored; read the stored pair (the `.expect` panic is `none`);
fail with `NotProofOwner` if the sender is not the stored owner; otherwise
mutate the owner field in place and deposit
`ClaimTransfered(sender, account, proof)`. -/
def transfer_claim (proofs : Registry) (sender account : AccountId)
    (proof : Proof) : Option CallResult :=
  if contains_key proofs proof then
    match proofs proof with
    | none => none
    | some value =>
      if sender = value.1 then
        some ⟨Except.ok (), mutate proofs proof (transferMutator account),
          [Event.ClaimTransfered sender account proof]⟩
      else
        some ⟨Except.error Error.NotProofOwner, proofs, []⟩
  else
    some ⟨Except.error Error.NoSuchProof, proofs, []⟩

/-- `revoke_claim` (lib.rs lines 128-153): fail with `NoSuchProof` if the
proof is not stored; read the stored pair (the `.expect` panic is `none`);
fail with `NotProofOwner` if the sender is not the stored owner; otherwise
remove the entry and deposit `ClaimRevoked(sender, proof)`. -/
def revoke_claim (proofs : Registry) (sender : AccountId) (proof : Proof) :
    Option CallResult :=
  if contains_key proofs proof then
    match proofs proof with
    | none => none
    | some value =>
      if sender = value.1 then
        some ⟨Except.ok (), remove proofs proof,
          [Event.ClaimRevoked sender proof]⟩
      else
        some ⟨Except.error Error.NotProofOwner, proofs, []⟩
  else
    some ⟨Except.error Error.NoSuchProof, proofs, []⟩

/-- Registry states reachable from the empty registry by any sequence of
the three dispatchables (at arbitrary block numbers, senders and
arguments), taking the post-call storage whether the call succeeded or
failed. -/
inductive Reachable : Registry → Prop where
  | empty : Reachable emptyRegistry
  | create (proofs : Registry) (b : BlockNumber) (s : AccountId) (p : Proof) :
      Reachable proofs → Reachable (create_claim proofs b s p).proofs
  | transfer (proofs : Registry) (s a : AccountId) (p : Proof)
      (res : CallResult) : Reachable proofs →
      transfer_claim proofs s a p = some res → Reachable res.proofs
  | revoke (proofs : Registry) (s : AccountId) (p : Proof)
      (res : CallResult) : Reachable proofs →
      revoke_claim proofs s p = some res → Reachable res.proofs

/-- Helper: a successful self-transfer leaves the storage unchanged. -/
theorem transfer_claim_self_eq (proofs : Registry) (s : AccountId)
    (p : Proof) (t : BlockNumber) (h : proofs p = some (s, t)) :
    transfer_claim proofs s s p =
      some ⟨Except.ok (), proofs, [Event.ClaimTransfered s s p]⟩ := by
  have hc : contains_key proofs p = true := by simp [contains_key, h]
  simp only [transfer_claim, hc, if_true, h]
  simp only [if_pos rfl, Option.some.injEq]
  congr 1
  funext q
  by_cases hq : q = p <;> simp [mutate, transferMutator, hq, h]

/-- Helper: a revoke by the stored owner succeeds and removes the key. -/
theorem revoke_claim_owner_eq (proofs : Registry) (s : AccountId)
    (p : Proof) (t : BlockNumber) (h : proofs p = some (s, t)) :
    revoke_claim proofs s p =
      some ⟨Except.ok (), remove proofs p, [Event.ClaimRevoked s p]⟩ := by
  have hc : contains_key proofs p = true := by simp [contains_key, h]
  simp [revoke_claim, hc, h]

/-- C1: on a state where proof `p` has no record, `create_claim` succeeds,
inserts a record for `p` with owner `sender` and `createdAt` the current
block number, and deposits exactly `ClaimCreated(sender, p)`. -/
theorem create_claim_on_unclaimed (proofs : Registry) (b : BlockNumber)
    (s : AccountId) (p : Proof) (h : proofs p = none) :
    (create_claim proofs b s p).result = Except.ok () ∧
    (create_claim proofs b s p).proofs p = some (s, b) ∧
    (create_claim proofs b s p).events = [Event.ClaimCreated s p] := by
  simp [create_claim, contains_key, insert, h]

/-- Witness for C1 at a concrete input. -/
theorem create_claim_on_unclaimed_witness :
    emptyRegistry [7] = none ∧
    ((create_claim emptyRegistry 5 1 [7]).result = Except.ok () ∧
     (create_claim emptyRegistry 5 1 [7]).proofs [7] = some (1, 5) ∧
     (create_claim emptyRegistry 5 1 [7]).events =
       [Event.ClaimCreated 1 [7]]) :=
  ⟨rfl, create_claim_on_unclaimed emptyRegistry 5 1 [7] rfl⟩

/-- C2: on a state where proof `p` already has a record, `create_claim`
fails with `ProofAlreadyClaimed` for every sender, leaves the whole
storage (in particular `p`'s record) unchanged, and deposits no event. -/
theorem create_claim_on_claimed (proofs : Registry) (b : BlockNumber)
    (s2 : AccountId) (p : Proof) (o : AccountId) (t : BlockNumber)
    (h : proofs p = some (o, t)) :
    create_claim proofs b s2 p =
      ⟨Except.error Error.ProofAlreadyClaimed, proofs, []⟩ ∧
    (create_claim proofs b s2 p).proofs p = some (o, t) := by
  have hc : contains_key proofs p = true := by
    simp [contains_key, h]
  constructor
  · simp [create_claim, hc]
  · simp [create_claim, hc, h]

/-- Witness for C2 at a concrete input: the owner itself re-creating. -/
theorem create_claim_on_claimed_witness :
    insert emptyRegistry [7] (1, 5) [7] = some (1, 5) ∧
    (create_claim (insert emptyRegistry [7] (1, 5)) 9 1 [7] =
      ⟨Except.error Error.ProofAlreadyClaimed,
        insert emptyRegistry [7] (1, 5), []⟩ ∧
     (create_claim (insert emptyRegistry [7] (1, 5)) 9 1 [7]).proofs [7] =
      some (1, 5)) :=
  ⟨rfl, create_claim_on_claimed (insert emptyRegistry [7] (1, 5)) 9 1 [7]
    1 5 rfl⟩

/-- C3: `transfer_claim` and `revoke_claim` check existence first and
ownership second: with no record for `p` both fail with `NoSuchProof` for
every sender; with a record owned by someone other than the sender both
fail with `NotProofOwner`; on either failure the storage is unchanged and
no event is deposited. -/
theorem transfer_revoke_check_order (proofs : Registry) (s a : AccountId)
    (p : Proof) :
    (proofs p = none →
      transfer_claim proofs s a p =
        some ⟨Except.error Error.NoSuchProof, proofs, []⟩ ∧
      revoke_claim proofs s p =
        some ⟨Except.error Error.NoSuchProof, proofs, []⟩) ∧
    (∀ o t, proofs p = some (o, t) → s ≠ o →
      transfer_claim proofs s a p =
        some ⟨Except.error Error.NotProofOwner, proofs, []⟩ ∧
      revoke_claim proofs s p =
        some ⟨Except.error Error.NotProofOwner, proofs, []⟩) := by
  constructor
  · intro h
    constructor <;> simp [transfer_claim, revoke_claim, contains_key, h]
  · intro o t h hs
    have hc : contains_key proofs p = true := by simp [contains_key, h]
    constructor <;> simp [transfer_claim, revoke_claim, hc, h, hs]

/-- Witness for C3 at concrete inputs: both the missing-record and the
wrong-owner branches. -/
theorem transfer_revoke_check_order_witness :
    (transfer_claim emptyRegistry 1 2 [7] =
      some ⟨Except.error Error.NoSuchProof, emptyRegistry, []⟩ ∧
     revoke_claim emptyRegistry 1 [7] =
      some ⟨Except.error Error.NoSuchProof, emptyRegistry, []⟩) ∧
    (transfer_claim (insert emptyRegistry [7] (3, 5)) 1 2 [7] =
      some ⟨Except.error Error.NotProofOwner,
        insert emptyRegistry [7] (3, 5), []⟩ ∧
     revoke_claim (insert emptyRegistry [7] (3, 5)) 1 [7] =
      some ⟨Except.error Error.NotProofOwner,
        insert emptyRegistry [7] (3, 5), []⟩) :=
  ⟨(transfer_revoke_check_order emptyRegistry 1 2 [7]).1 rfl,
   (transfer_revoke_check_order (insert emptyRegistry [7] (3, 5)) 1 2
      [7]).2 3 5 rfl (by decide)⟩

/-- C4: when `p`'s record is `(sender, t)`, `transfer_claim` to `account`
succeeds and the storage afterwards differs only at `p`, whose record
becomes `(account, t)` — the `createdAt` component `t` is unchanged. -/
theorem transfer_claim_preserves_createdAt (proofs : Registry)
    (s a : AccountId) (p : Proof) (t : BlockNumber)
    (h : proofs p = some (s, t)) :
    transfer_claim proofs s a p =
      some ⟨Except.ok (),
        fun q => if q = p then some (a, t) else proofs q,
        [Event.ClaimTransfered s a p]⟩ := by
  have hc : contains_key proofs p = true := by simp [contains_key, h]
  simp only [transfer_claim, hc, if_true, h]
  simp only [if_pos rfl, Option.some.injEq]
  congr 1
  funext q
  by_cases hq : q = p <;> simp [mutate, transferMutator, hq, h]

/-- Witness for C4 at a concrete input. -/
theorem transfer_claim_preserves_createdAt_witness :
    insert emptyRegistry [7] (1, 5) [7] = some (1, 5) ∧
    transfer_claim (insert emptyRegistry [7] (1, 5)) 1 2 [7] =
      some ⟨Except.ok (),
        fun q => if q = [7] then some (2, 5)
          else insert emptyRegistry [7] (1, 5) q,
        [Event.ClaimTransfered 1 2 [7]]⟩ :=
  ⟨rfl, transfer_claim_preserves_createdAt (insert emptyRegistry [7] (1, 5))
    1 2 [7] 5 rfl⟩

/-- C5: in every state reachable from the empty registry, every proof
present as a key maps to a pair with a well-defined owner, and neither
`transfer_claim` nor `revoke_claim` can hit the `.expect` panic (modelled
as `none`): both always return `some` outcome. -/
theorem reachable_owner_always_defined (proofs : Registry)
    (hr : Reachable proofs) (s a : AccountId) (p : Proof) :
    (contains_key proofs p = true → ∃ o t, proofs p = some (o, t)) ∧
    (transfer_claim proofs s a p).isSome = true ∧
    (revoke_claim proofs s p).isSome = true := by
  refine ⟨?_, ?_, ?_⟩
  · intro hc
    rcases hp : proofs p with _ | ⟨o, t⟩
    · rw [contains_key, hp] at hc
      simp at hc
    · exact ⟨o, t, rfl⟩
  · rcases hp : proofs p with _ | ⟨o, t⟩ <;>
      simp [transfer_claim, contains_key, hp] <;> split <;> simp
  · rcases hp : proofs p with _ | ⟨o, t⟩ <;>
      simp [revoke_claim, contains_key, hp] <;> split <;> simp

/-- Witness for C5 at a concrete reachable state. -/
theorem reachable_owner_always_defined_witness :
    (contains_key emptyRegistry [7] = true →
      ∃ o t, emptyRegistry [7] = some (o, t)) ∧
    (transfer_claim emptyRegistry 1 2 [7]).isSome = true ∧
    (revoke_claim emptyRegistry 1 [7]).isSome = true :=
  reachable_owner_always_defined emptyRegistry Reachable.empty 1 2 [7]

/-- C6: when `p`'s record is owned by the sender, `revoke_claim` succeeds,
removes `p`'s record, and deposits `ClaimRevoked(sender, p)`; afterwards
`create_claim` by anyone succeeds and stores a fresh record whose
`createdAt` is the block number of the new create. -/
theorem revoke_then_create (proofs : Registry) (s : AccountId) (p : Proof)
    (t : BlockNumber) (h : proofs p = some (s, t)) (anyone : AccountId)
    (b : BlockNumber) :
    revoke_claim proofs s p =
      some ⟨Except.ok (), remove proofs p, [Event.ClaimRevoked s p]⟩ ∧
    (remove proofs p) p = none ∧
    (create_claim (remove proofs p) b anyone p).result = Except.ok () ∧
    (create_claim (remove proofs p) b anyone p).proofs p =
      some (anyone, b) ∧
    (create_claim (remove proofs p) b anyone p).events =
      [Event.ClaimCreated anyone p] := by
  have hc : contains_key proofs p = true := by simp [contains_key, h]
  have hr : (remove proofs p) p = none := by simp [remove]
  refine ⟨?_, hr, ?_, ?_, ?_⟩
  · simp [revoke_claim, hc, h]
  all_goals simp [create_claim, contains_key, insert, hr]

/-- Witness for C6 at a concrete input. -/
theorem revoke_then_create_witness :
    insert emptyRegistry [7] (1, 5) [7] = some (1, 5) ∧
    (revoke_claim (insert emptyRegistry [7] (1, 5)) 1 [7] =
      some ⟨Except.ok (), remove (insert emptyRegistry [7] (1, 5)) [7],
        [Event.ClaimRevoked 1 [7]]⟩ ∧
     (remove (insert emptyRegistry [7] (1, 5)) [7]) [7] = none ∧
     (create_claim (remove (insert emptyRegistry [7] (1, 5)) [7]) 9 2
        [7]).result = Except.ok () ∧
     (create_claim (remove (insert emptyRegistry [7] (1, 5)) [7]) 9 2
        [7]).proofs [7] = some (2, 9) ∧
     (create_claim (remove (insert emptyRegistry [7] (1, 5)) [7]) 9 2
        [7]).events = [Event.ClaimCreated 2 [7]]) :=
  ⟨rfl, revoke_then_create (insert emptyRegistry [7] (1, 5)) 1 [7] 5 rfl
    2 9⟩

/-- C7: transfer to self: when `p`'s record is owned by the sender,
`transfer_claim(sender, sender, p)` succeeds, leaves the storage
identical, and still deposits `ClaimTransfered(sender, sender, p)`. -/
theorem transfer_claim_to_self (proofs : Registry) (s : AccountId)
    (p : Proof) (t : BlockNumber) (h : proofs p = some (s, t)) :
    transfer_claim proofs s s p =
      some ⟨Except.ok (), proofs, [Event.ClaimTransfered s s p]⟩ :=
  transfer_claim_self_eq proofs s p t h

/-- Witness for C7 at a concrete input. -/
theorem transfer_claim_to_self_witness :
    insert emptyRegistry [7] (1, 5) [7] = some (1, 5) ∧
    transfer_claim (insert emptyRegistry [7] (1, 5)) 1 1 [7] =
      some ⟨Except.ok (), insert emptyRegistry [7] (1, 5),
        [Event.ClaimTransfered 1 1 [7]]⟩ :=
  ⟨rfl, transfer_claim_to_self (insert emptyRegistry [7] (1, 5)) 1 [7]
    5 rfl⟩

/-- C8: round trip: starting from a state where `p` is unclaimed, the
sequence create, transfer-to-self, revoke, create all succeed, and the
final storage equals the storage produced by the single final create
alone (its `createdAt` for `p` is the block number `b4` of that final
create). -/
theorem round_trip (proofs : Registry) (s : AccountId) (p : Proof)
    (b1 b4 : BlockNumber) (h : proofs p = none) :
    (create_claim proofs b1 s p).result = Except.ok () ∧
    ∃ r2 r3,
      transfer_claim (create_claim proofs b1 s p).proofs s s p = some r2 ∧
      r2.result = Except.ok () ∧
      revoke_claim r2.proofs s p = some r3 ∧
      r3.result = Except.ok () ∧
      (create_claim r3.proofs b4 s p).result = Except.ok () ∧
      (create_claim r3.proofs b4 s p).proofs =
        (create_claim proofs b4 s p).proofs := by
  have hc : contains_key proofs p = false := by simp [contains_key, h]
  have h1 : create_claim proofs b1 s p =
      ⟨Except.ok (), insert proofs p (s, b1), [Event.ClaimCreated s p]⟩ := by
    simp [create_claim, hc]
  have hins : insert proofs p (s, b1) p = some (s, b1) := by simp [insert]
  have h2 := transfer_claim_self_eq (insert proofs p (s, b1)) s p b1 hins
  have h3 := revoke_claim_owner_eq (insert proofs p (s, b1)) s p b1 hins
  have hri : remove (insert proofs p (s, b1)) p = proofs := by
    funext q
    by_cases hq : q = p <;> simp [remove, insert, hq, h]
  rw [hri] at h3
  refine ⟨by rw [h1], ⟨Except.ok (), insert proofs p (s, b1),
      [Event.ClaimTransfered s s p]⟩,
    ⟨Except.ok (), proofs, [Event.ClaimRevoked s p]⟩,
    ?_, rfl, h3, rfl, ?_, rfl⟩
  · rw [h1]
    exact h2
  · simp [create_claim, hc]

/-- Witness for C8 at a concrete input. -/
theorem round_trip_witness :
    emptyRegistry [7] = none ∧
    ((create_claim emptyRegistry 5 1 [7]).result = Except.ok () ∧
     ∃ r2 r3,
       transfer_claim (create_claim emptyRegistry 5 1 [7]).proofs 1 1 [7] =
         some r2 ∧
       r2.result = Except.ok () ∧
       revoke_claim r2.proofs 1 [7] = some r3 ∧
       r3.result = Except.ok () ∧
       (create_claim r3.proofs 9 1 [7]).result = Except.ok () ∧
       (create_claim r3.proofs 9 1 [7]).proofs =
         (create_claim emptyRegistry 9 1 [7]).proofs) :=
  ⟨rfl, round_trip emptyRegistry 1 [7] 5 9 rfl⟩

/-- C9: single-key footprint: for every proof `q` different from the
argument `p`, each operation — successful or failed — leaves the storage
at `q` (presence and record) exactly unchanged. -/
theorem single_key_footprint (proofs : Registry) (b : BlockNumber)
    (s a : AccountId) (p q : Proof) (hq : q ≠ p) :
    (create_claim proofs b s p).proofs q = proofs q ∧
    (∀ res, transfer_claim proofs s a p = some res →
      res.proofs q = proofs q) ∧
    (∀ res, revoke_claim proofs s p = some res →
      res.proofs q = proofs q) := by
  refine ⟨?_, ?_, ?_⟩
  · by_cases hc : contains_key proofs p <;>
      simp [create_claim, hc, insert, hq]
  · intro res hres
    rcases hp : proofs p with _ | ⟨o, t⟩
    · have hc : contains_key proofs p = false := by simp [contains_key, hp]
      simp [transfer_claim, hc] at hres
      simp [← hres]
    · have hc : contains_key proofs p = true := by simp [contains_key, hp]
      by_cases hs : s = o <;>
        simp [transfer_claim, hc, hp, hs] at hres <;>
        simp [← hres, mutate, hq]
  · intro res hres
    rcases hp : proofs p with _ | ⟨o, t⟩
    · have hc : contains_key proofs p = false := by simp [contains_key, hp]
      simp [revoke_claim, hc] at hres
      simp [← hres]
    · have hc : contains_key proofs p = true := by simp [contains_key, hp]
      by_cases hs : s = o <;>
        simp [revoke_claim, hc, hp, hs] at hres <;>
        simp [← hres, remove, hq]

/-- Witness for C9 at a concrete input. -/
theorem single_key_footprint_witness :
    (create_claim emptyRegistry 5 1 [7]).proofs [8] = emptyRegistry [8] ∧
    (∀ res, transfer_claim emptyRegistry 1 2 [7] = some res →
      res.proofs [8] = emptyRegistry [8]) ∧
    (∀ res, revoke_claim emptyRegistry 1 [7] = some res →
      res.proofs [8] = emptyRegistry [8]) :=
  single_key_footprint emptyRegistry 5 1 2 [7] [8] (by decide)

/-- C10: determinism: each operation is a pure function of the storage,
block number, sender and arguments — equal inputs give equal outcomes
(result, post-storage and events all equal). -/
theorem deterministic_operations (proofs1 proofs2 : Registry)
    (b1 b2 : BlockNumber) (s1 s2 a1 a2 : AccountId) (p1 p2 : Proof)
    (hreg : proofs1 = proofs2) (hb : b1 = b2) (hs : s1 = s2)
    (ha : a1 = a2) (hp : p1 = p2) :
    create_claim proofs1 b1 s1 p1 = create_claim proofs2 b2 s2 p2 ∧
    transfer_claim proofs1 s1 a1 p1 = transfer_claim proofs2 s2 a2 p2 ∧
    revoke_claim proofs1 s1 p1 = revoke_claim proofs2 s2 p2 := by
  subst hreg hb hs ha hp
  exact ⟨rfl, rfl, rfl⟩

/-- Witness for C10 at a concrete input. -/
theorem deterministic_operations_witness :
    create_claim emptyRegistry 5 1 [7] = create_claim emptyRegistry 5 1 [7] ∧
    transfer_claim emptyRegistry 1 2 [7] =
      transfer_claim emptyRegistry 1 2 [7] ∧
    revoke_claim emptyRegistry 1 [7] = revoke_claim emptyRegistry 1 [7] :=
  deterministic_operations emptyRegistry emptyRegistry 5 5 1 1 2 2 [7] [7]
    rfl rfl rfl rfl rfl

end PoE
